import Mathlib

set_option maxRecDepth 2048

/-!
Verification development for `app_sidebar_MG.py`, a Streamlit dashboard that
reads an Excel workbook, normalizes Brazilian-locale numbers, reshapes each
sheet into a long table and computes period-over-period deltas with formatted
labels.

The Python source is shallowly embedded:
* pandas float cells (which may be NaN or ±infinity) become the inductive
  type `PF`;
* Python strings are modelled as `List Char` inside the normalizer, with
  `String` at the boundary;
* data frames become lists of rows; `melt`, the sorting by ordered
  categorical, `shift(1)` and the label formatting are explicit functions.
-/

/-- A pandas/NumPy float cell: NaN, ±infinity, or a finite value.
Finite values are modelled as rationals; every number appearing in the
verified scenarios is exactly representable in binary floating point, so
rational arithmetic agrees with the float arithmetic the program performs. -/
inductive PF where
  | nan : PF
  | inf : Bool → PF   -- `inf true` is +∞, `inf false` is −∞
  | num : ℚ → PF
deriving DecidableEq

namespace PF

/-- `pd.isna` on a float: true exactly on NaN (false on ±infinity). -/
def isna : PF → Bool
  | .nan => true
  | _ => false

/-- IEEE-style subtraction as performed by pandas on float columns. -/
def sub : PF → PF → PF
  | .nan, _ => .nan
  | _, .nan => .nan
  | .num a, .num b => .num (a - b)
  | .inf s, .num _ => .inf s
  | .num _, .inf s => .inf (!s)
  | .inf s, .inf t => if s = t then .nan else .inf s

/-- IEEE-style division: finite/0 gives ±infinity (0/0 gives NaN); pandas
performs this silently (`np.errstate` suppressed warnings), it never raises. -/
def div : PF → PF → PF
  | .nan, _ => .nan
  | _, .nan => .nan
  | .num a, .num b =>
      if b = 0 then (if a = 0 then .nan else .inf (decide (0 < a)))
      else .num (a / b)
  | .inf s, .num b => if b = 0 then .inf s else .inf (s == decide (0 < b))
  | .num _, .inf _ => .num 0
  | .inf _, .inf _ => .nan

/-- IEEE-style multiplication (only used with the finite factor 100). -/
def mul : PF → PF → PF
  | .nan, _ => .nan
  | _, .nan => .nan
  | .num a, .num b => .num (a * b)
  | .inf s, .num b => if b = 0 then .nan else .inf (s == decide (0 < b))
  | .num a, .inf s => if a = 0 then .nan else .inf (s == decide (0 < a))
  | .inf s, .inf t => .inf (s == t)

end PF

/-- A raw spreadsheet cell as seen by `parse_br_number`: missing (`None`/NaN,
i.e. `pd.isna`), an already-numeric value, or text. -/
inductive RawCell where
  | missing : RawCell
  | num : ℚ → RawCell
  | str : String → RawCell
deriving DecidableEq

/-! ### Character-list string operations (Python `str` methods) -/

/-- `text.replace(c, "")` for a single character `c`. -/
def remChar (c : Char) (l : List Char) : List Char :=
  l.filter (fun x => x ≠ c)

/-- `text.replace(a, b)` for single characters `a`, `b`. -/
def swapChar (a b : Char) (l : List Char) : List Char :=
  l.map (fun x => if x = a then b else x)

/-- `text.replace("R$", "")`: removes non-overlapping occurrences of `R$`,
scanning left to right as Python does. -/
def remRS : List Char → List Char
  | 'R' :: '$' :: ts => remRS ts
  | t :: ts => t :: remRS ts
  | [] => []

/-- `str.strip()`: drop leading and trailing whitespace. -/
def stripWs (l : List Char) : List Char :=
  ((l.dropWhile Char.isWhitespace).reverse.dropWhile Char.isWhitespace).reverse

/-- Index of the last occurrence of `c` (Python `rfind`, `none` for absent). -/
def rlastIdx (c : Char) : List Char → Option Nat
  | [] => none
  | x :: xs =>
      match rlastIdx c xs with
      | some n => some (n + 1)
      | none => if x = c then some 0 else none

/-- Python `p in t` substring test, and `map toLower` for `str.lower()`. -/
def prefixLe : List Char → List Char → Bool
  | [], _ => true
  | _ :: _, [] => false
  | p :: ps, t :: ts => p == t && prefixLe ps ts

/-- Substring containment over character lists. -/
def containsL (p : List Char) : List Char → Bool
  | [] => p.isEmpty
  | t :: ts => prefixLe p (t :: ts) || containsL p ts

/-- `str.lower()` (ASCII case mapping, which covers the marker `"presen"`). -/
def lowerC (l : List Char) : List Char :=
  l.map Char.toLower

/-! ### Decimal string parsing (`pd.to_numeric(s, errors="coerce")`) -/

/-- Leading decimal digits and the rest. -/
def takeDigits : List Char → List Char × List Char
  | [] => ([], [])
  | c :: cs =>
      if c.isDigit then
        let p := takeDigits cs
        (c :: p.1, p.2)
      else ([], c :: cs)

/-- Numeric value of a digit string (most significant first). -/
def digitsToNat (ds : List Char) : Nat :=
  ds.foldl (fun a c => a * 10 + (c.toNat - 48)) 0

/-- Optional exponent suffix (`e`/`E`, optional sign, digits); everything must
be consumed. -/
def parseExpPart (base : ℚ) : List Char → Option ℚ
  | [] => some base
  | 'e' :: r => parseExpDigits base r
  | 'E' :: r => parseExpDigits base r
  | _ => none
where
  parseExpDigits (base : ℚ) : List Char → Option ℚ
    | '-' :: r =>
        let p := takeDigits r
        if p.1.isEmpty || !p.2.isEmpty then none
        else some (base / 10 ^ digitsToNat p.1)
    | '+' :: r =>
        let p := takeDigits r
        if p.1.isEmpty || !p.2.isEmpty then none
        else some (base * 10 ^ digitsToNat p.1)
    | r =>
        let p := takeDigits r
        if p.1.isEmpty || !p.2.isEmpty then none
        else some (base * 10 ^ digitsToNat p.1)

/-- Unsigned decimal literal: digits, optional fraction, optional exponent. -/
def parseUnsignedDec (cs : List Char) : Option ℚ :=
  let ip := takeDigits cs
  match ip.2 with
  | '.' :: r2 =>
      let fp := takeDigits r2
      if ip.1.isEmpty && fp.1.isEmpty then none
      else
        parseExpPart ((digitsToNat ip.1 : ℚ) + (digitsToNat fp.1 : ℚ) / 10 ^ fp.1.length) fp.2
  | r1 =>
      if ip.1.isEmpty then none else parseExpPart (digitsToNat ip.1 : ℚ) r1

/-- `pd.to_numeric(s, errors="coerce")` on a canonical decimal string:
`some` value on success, `none` (coerced to NaN) on failure. -/
def parseDec (l : List Char) : Option ℚ :=
  match l with
  | '-' :: cs => (parseUnsignedDec cs).map Neg.neg
  | '+' :: cs => parseUnsignedDec cs
  | cs => parseUnsignedDec cs

/-! ### The normalizer `parse_br_number` -/

/-- The separator-disambiguation step of `parse_br_number` (lines 42–50):
with both `,` and `.` present the one whose last occurrence comes later is
the decimal separator; with only `,` present it is the decimal separator;
otherwise commas are stripped. -/
def sepLogic (l : List Char) : List Char :=
  if l.contains ',' && l.contains '.' then
    if (rlastIdx ',' l).getD 0 > (rlastIdx '.' l).getD 0 then
      swapChar ',' '.' (remChar '.' l)     -- 1.234,56 -> 1234.56
    else
      remChar ',' l                        -- 1,234.56 -> 1234.56
  else if l.contains ',' then
    swapChar ',' '.' (remChar '.' l)       -- 452,74 -> 452.74
  else
    remChar ',' l

/-- The full string-canonicalization pipeline of `parse_br_number`:
strip, drop non-breaking and regular spaces, drop `R$` and `%`, then the
separator logic. -/
def canonNum (l : List Char) : List Char :=
  sepLogic (remChar '%' (remRS (remChar ' ' (remChar (Char.ofNat 160) (stripWs l)))))

/-- `parse_br_number` (lines 37–51): missing passes through as NaN, numbers
pass through as floats, strings are canonicalized and coerced. -/
def parse_br_number : RawCell → PF
  | .missing => .nan
  | .num q => .num q
  | .str s =>
      match parseDec (canonNum s.data) with
      | some q => .num q
      | none => .nan

/-! ### Number formatting (Python f-strings `:.2f` and `:+.2f`) -/

/-- Floor of a rational as an integer (used by round-half-to-even). -/
def qfloor (x : ℚ) : ℤ :=
  Int.fdiv x.num x.den

/-- Round to the nearest integer, ties to even (Python float formatting). -/
def roundHalfEven (x : ℚ) : ℤ :=
  let f := qfloor x
  let r := x - f
  if r < 1 / 2 then f
  else if 1 / 2 < r then f + 1
  else if f % 2 = 0 then f else f + 1

/-- Two-digit zero padding of the fractional part. -/
def pad2 (m : Nat) : String :=
  (if m < 10 then "0" else "") ++ toString m

/-- `f"{x:.2f}"` (`plus = false`) and `f"{x:+.2f}"` (`plus = true`), with the
values the program produces: infinities print as `inf`, the sign taken from
the value. All finite values in the verified scenarios are exact two-decimal
quantities, where rounding of the rational equals rounding of the float. -/
def fmt2 (plus : Bool) : PF → String
  | .nan => "nan"
  | .inf true => if plus then "+inf" else "inf"
  | .inf false => "-inf"
  | .num q =>
      let m := (roundHalfEven (q * 100)).natAbs
      (if q < 0 then "-" else if plus then "+" else "") ++
        toString (m / 100) ++ "." ++ pad2 (m % 100)

/-- `fnum` (line 91): em-dash for NaN, else `:.2f`. -/
def fnum (x : PF) : String :=
  if x.isna then "—" else fmt2 false x

/-- `fsgn` (line 90): em-dash for NaN, else `:+.2f`. -/
def fsgn (x : PF) : String :=
  if x.isna then "—" else fmt2 true x

/-! ### Startup check (lines 10, 133–135)

`EXCEL_PATH` is assigned the plain string `"Comparativo_MG.xlsx"` and never
wrapped in `Path`, yet the main block calls `EXCEL_PATH.exists()` and
`EXCEL_PATH.name`. In Python, attribute access is dynamic: `.exists`/`.name`
exist on `pathlib.Path` objects but not on `str`, so the call raises
`AttributeError`. The embedding keeps that dynamic-dispatch distinction. -/

/-- A Python value that is either a `str` or a `pathlib.Path`. -/
inductive PyVal where
  | strVal : String → PyVal
  | pathVal : String → PyVal
deriving DecidableEq

/-- Line 10: `EXCEL_PATH = "Comparativo_MG.xlsx"` — a `str`, not a `Path`. -/
def EXCEL_PATH : PyVal := .strVal "Comparativo_MG.xlsx"

/-- `x.exists()` under a filesystem `fs` (mapping paths to existence):
defined on `Path` values, `AttributeError` on `str` values. -/
def pyExists (fs : String → Bool) : PyVal → Except String Bool
  | .strVal _ => .error "AttributeError: str has no attribute exists"
  | .pathVal p => .ok (fs p)

/-- `x.name`: defined on `Path` values, `AttributeError` on `str` values. -/
def pyName : PyVal → Except String String
  | .strVal _ => .error "AttributeError: str has no attribute name"
  | .pathVal p => .ok p

/-- How the startup block (lines 133–135) terminates. -/
inductive StartupOutcome where
  | attrError : StartupOutcome                  -- uncaught exception
  | errorMessage : String → StartupOutcome      -- st.error + st.stop
  | proceed : StartupOutcome                    -- falls through to loading
deriving DecidableEq

/-- Lines 133–135: `if not EXCEL_PATH.exists(): st.error(f"Arquivo não
encontrado: {EXCEL_PATH.name}."); st.stop()`. -/
def startupCheck (fs : String → Bool) : StartupOutcome :=
  match pyExists fs EXCEL_PATH with
  | .error _ => .attrError
  | .ok true => .proceed
  | .ok false =>
      match pyName EXCEL_PATH with
      | .error _ => .attrError
      | .ok n => .errorMessage ("Arquivo não encontrado: " ++ n ++ ".")

/-! ### Sheet reshaping (`preparar_df`, lines 58–79) -/

/-- A long-format row produced by `melt`: `(Regional, Avaliação, Nota)`. -/
structure LongRow where
  regional : String
  aval : String
  nota : PF
deriving DecidableEq

/-- A sheet row: the first-column group label and the category-column cells. -/
abbrev SheetRow := String × List RawCell

/-- The marker substring of line 65. -/
def presenMark : List Char := "presen".data

/-- Lines 63–66: drop the last row when its group-column value contains
`"presen"` case-insensitively. -/
def dropPresenca (rows : List SheetRow) : List SheetRow :=
  match rows.getLast? with
  | some r => if containsL presenMark (lowerC r.1.data) then rows.dropLast else rows
  | none => rows

/-- One melted cell: row `t`, category column `c` at index `j`. -/
def mkLong (j : Nat) (c : String) (t : SheetRow) : LongRow :=
  ⟨t.1, c, parse_br_number (t.2.getD j .missing)⟩

/-- `df.melt(id_vars="Regional", value_vars=aval_cols, ...)`: column-major —
all rows of the first category column, then all rows of the second, etc.
Every value cell goes through `parse_br_number`; on a numeric-dtype column
the code skips the `map`, which is semantically a no-op since the parser is
the identity on numeric cells. -/
def meltCols (rows : List SheetRow) : Nat → List String → List LongRow
  | _, [] => []
  | j, c :: cs => rows.map (mkLong j c) ++ meltCols rows (j + 1) cs

/-- `preparar_df` (lines 58–79): drop the attendance row, normalize, melt.
The categories of the result are ordered by original column position (the
ordered `pd.Categorical` of lines 77–78), represented by `cols` itself. -/
def preparar_df (cols : List String) (rows : List SheetRow) : List LongRow :=
  meltCols (dropPresenca rows) 0 cols

/-! ### Metrics (`montar_base`, lines 82–107) -/

/-- Ordinal of a category: its position in the ordered label list (the index
of its first occurrence). -/
def ordIdx (cols : List String) (c : String) : Nat :=
  match cols with
  | [] => 0
  | d :: ds => if d == c then 0 else ordIdx ds c + 1

/-- Stable insertion of `x` into a list sorted by `key`. -/
def insertByKey (key : LongRow → Nat) (x : LongRow) : List LongRow → List LongRow
  | [] => [x]
  | y :: ys => if key x ≤ key y then x :: y :: ys else y :: insertByKey key x ys

/-- `sort_values("Avaliação")` on the ordered categorical: sort by ordinal.
(The claims only exercise inputs whose sort keys are distinct, where every
comparison sort agrees.) -/
def sortByKey (key : LongRow → Nat) : List LongRow → List LongRow
  | [] => []
  | x :: xs => insertByKey key x (sortByKey key xs)

/-- A row of the `montar_base` output frame. -/
structure MetricRow where
  regional : String
  aval : String
  nota : PF
  nota_anterior : PF
  delta : PF
  delta_pct : PF
  label_text : String
  hover_text : String
deriving DecidableEq

/-- The visible label of lines 94–98: short form when `Nota_anterior` is NaN,
long form otherwise, with `fsgn`/`fnum` printing NaN operands as `—`. -/
def mkLabel (nota prev delta dpct : PF) : String :=
  if prev.isna then "Nota " ++ fnum nota
  else "Nota " ++ fnum nota ++ " (Δ " ++ fsgn delta ++ "; " ++ fsgn dpct ++ "%)"

/-- One output row from a long row `r` and its shifted predecessor value `p`
(lines 86–106). -/
def mkMetricRow (r : LongRow) (p : PF) : MetricRow :=
  let d := PF.sub r.nota p
  let dp := PF.mul (PF.div d p) (PF.num 100)
  { regional := r.regional
    aval := r.aval
    nota := r.nota
    nota_anterior := p
    delta := d
    delta_pct := dp
    label_text := mkLabel r.nota p d dp
    hover_text :=
      "<b>" ++ r.aval ++ "</b>" ++ "<br>Nota: " ++ fnum r.nota ++
        "<br>Variação Absoluta: " ++ fsgn d ++
        "<br>Variação Percentual: " ++ fsgn dp ++ "%" }

/-- `montar_base` (lines 82–107): filter to the chosen regional, sort by the
category ordinal, shift notes by one for `Nota_anterior`, derive deltas and
formatted texts. -/
def montar_base (cols : List String) (dfLong : List LongRow) (regional : String) :
    List MetricRow :=
  let base :=
    sortByKey (fun r => ordIdx cols r.aval)
      (dfLong.filter (fun r => r.regional == regional))
  (base.zip (PF.nan :: base.map (·.nota))).map (fun rp => mkMetricRow rp.1 rp.2)

/-! ### Spec-side separator policy (for the refinement claim about `sepLogic`)

Modelled from the spec: "If the string contains both `,` and `.`: the
separator that appears *later* in the string is the decimal separator; the
earlier one is a thousands separator and is removed." -/

/-- Modelled from the spec: the decimal separator of a string containing both
`,` and `.` is the one occurring later in the string. -/
def specDecimalSep (l : List Char) : Char :=
  if (rlastIdx ',' l).getD 0 > (rlastIdx '.' l).getD 0 then ',' else '.'

/-- Modelled from the spec: remove the earlier separator (thousands grouping)
and write the later one (the decimal separator) as `.`. -/
def specCanonBoth (l : List Char) : List Char :=
  if specDecimalSep l = ',' then swapChar ',' '.' (remChar '.' l)
  else swapChar '.' '.' (remChar ',' l)

/-! ### Concrete scenario frames used by the claims -/

/-- The three-round category list of the worked example. -/
def cols3 : List String := ["c1", "c2", "c3"]

/-- Division-by-zero scenario: previous value `0.0`, current value `5.0`. -/
def outC2 : List MetricRow :=
  montar_base ["c1", "c2"]
    (preparar_df ["c1", "c2"] [("G", [.num 0, .num 5])]) "G"

/-- Mid-series missing scenario: values `[10.0, missing, 9.0]`. -/
def outC3 : List MetricRow :=
  montar_base cols3 (preparar_df cols3 [("G", [.num 10, .missing, .num 9])]) "G"

/-- Worked example of the spec: one group `g` with values `[10.0, 12.0, 9.0]`
over the rounds `c1 < c2 < c3`. -/
def outC4 (g : String) : List MetricRow :=
  montar_base cols3 (preparar_df cols3 [(g, [.num 10, .num 12, .num 9])]) g

/-! ## Helper lemmas -/

theorem swapChar_self (a : Char) (l : List Char) : swapChar a a l = l := by
  have h : ∀ x : Char, (if x = a then a else x) = x := by
    intro x
    by_cases hx : x = a
    · simp [hx]
    · simp [hx]
  simp [swapChar, h]

theorem remChar_of_not_contains (c : Char) (l : List Char)
    (h : l.contains c = false) : remChar c l = l := by
  rw [remChar, List.filter_eq_self]
  intro x hx
  have hne : x ≠ c := by
    rintro rfl
    rw [List.contains_eq_any_beq] at h
    have : l.any (x == ·) = true := List.any_eq_true.mpr ⟨x, hx, by simp⟩
    simp_all
  simp [hne]

/-! ## Claim theorems -/

/-- C1: the claim asks that a missing input file produce a user-visible
message naming the file and that an existing file let startup proceed. The
code assigns `EXCEL_PATH` a plain `str` and calls `.exists()`/`.name` on it,
so startup raises `AttributeError` under **every** filesystem state: it never
reaches the friendly message and never proceeds, even when the file exists. -/
theorem C1_startup_always_attribute_error (fs : String → Bool) :
    startupCheck fs = StartupOutcome.attrError := rfl

/-- C10: the normalizer is total on unparseable inputs: the empty string,
`None` and `"abc"` all yield the missing marker (NaN), and any string whose
canonical form fails float parsing yields the missing marker. -/
theorem C10_normalizer_total_on_unparseable :
    parse_br_number (.str "") = .nan ∧
    parse_br_number .missing = .nan ∧
    parse_br_number (.str "abc") = .nan ∧
    ∀ s : String, parseDec (canonNum s.data) = none → parse_br_number (.str s) = .nan := by
  refine ⟨by decide, rfl, by decide, ?_⟩
  intro s h
  simp [parse_br_number, h]

/-- Witness for C10 at the concrete unparseable string `"x1,2y"`. -/
theorem C10_witness :
    parseDec (canonNum "x1,2y".data) = none ∧ parse_br_number (.str "x1,2y") = .nan :=
  ⟨by decide, C10_normalizer_total_on_unparseable.2.2.2 "x1,2y" (by decide)⟩

/-- C9: with a comma but no dot, the comma is the decimal separator (the
canonical form maps the comma to a dot and changes nothing else), and
`normalize("452,74") = 452.74`. -/
theorem C9_comma_only_decimal :
    (∀ l : List Char, l.contains ',' = true → l.contains '.' = false →
      sepLogic l = swapChar ',' '.' l) ∧
    parse_br_number (.str "452,74") = .num 452.74 := by
  refine ⟨?_, by with_unfolding_all rfl⟩
  intro l hc hd
  rw [sepLogic, hc, hd]
  simp only [Bool.and_false, Bool.false_eq_true, if_false, if_true]
  rw [remChar_of_not_contains '.' l hd]

/-- Witness for C9 at the concrete input `"452,74"`. -/
theorem C9_witness :
    "452,74".data.contains ',' = true ∧ "452,74".data.contains '.' = false ∧
    sepLogic "452,74".data = swapChar ',' '.' "452,74".data :=
  ⟨by decide, by decide,
    C9_comma_only_decimal.1 "452,74".data (by decide) (by decide)⟩

/-- C6: with a dot but no comma, the separator step leaves the string as it
is — the dot is kept as the decimal separator, never stripped as thousands
grouping — and `normalize("1.234") = 1.234`, which differs from `1234`. -/
theorem C6_dot_only_kept_as_decimal :
    (∀ l : List Char, l.contains '.' = true → l.contains ',' = false →
      sepLogic l = l) ∧
    parse_br_number (.str "1.234") = .num 1.234 ∧
    (1.234 : ℚ) ≠ 1234 := by
  refine ⟨?_, by with_unfolding_all rfl, by norm_num⟩
  intro l hd hc
  rw [sepLogic, hc, hd]
  simp only [Bool.false_and, Bool.false_eq_true, if_false]
  rw [remChar_of_not_contains ',' l hc]

/-- Witness for C6 at the concrete input `"1.234"`. -/
theorem C6_witness :
    "1.234".data.contains '.' = true ∧ "1.234".data.contains ',' = false ∧
    sepLogic "1.234".data = "1.234".data :=
  ⟨by decide, by decide,
    C6_dot_only_kept_as_decimal.1 "1.234".data (by decide) (by decide)⟩

/-- C5: with both separators present, the separator whose occurrence comes
later in the string is the decimal separator and the other is removed (the
code agrees with the spec-side `specCanonBoth`), and both
`normalize("1.234,56")` and `normalize("1,234.56")` equal `1234.56`. -/
theorem C5_later_separator_is_decimal :
    (∀ l : List Char, l.contains ',' = true → l.contains '.' = true →
      sepLogic l = specCanonBoth l) ∧
    parse_br_number (.str "1.234,56") = .num 1234.56 ∧
    parse_br_number (.str "1,234.56") = .num 1234.56 := by
  refine ⟨?_, by with_unfolding_all rfl, by with_unfolding_all rfl⟩
  intro l hc hd
  rw [sepLogic, specCanonBoth, specDecimalSep, hc, hd]
  by_cases hlt : (rlastIdx ',' l).getD 0 > (rlastIdx '.' l).getD 0
  · simp [hlt]
  · have hcd : ¬((',' : Char) = '.') := by decide
    simp [hlt, hcd, swapChar_self]

/-- Witness for C5 at the concrete input `"1.234,56"`. -/
theorem C5_witness :
    "1.234,56".data.contains ',' = true ∧ "1.234,56".data.contains '.' = true ∧
    sepLogic "1.234,56".data = specCanonBoth "1.234,56".data :=
  ⟨by decide, by decide,
    C5_later_separator_is_decimal.1 "1.234,56".data (by decide) (by decide)⟩

/-- Every row of `montar_base` relates its derived fields to its own
`Nota`/`Nota_anterior` exactly as lines 86–98 compute them. -/
theorem mem_montar_base {cols : List String} {df : List LongRow} {g : String}
    {m : MetricRow} (h : m ∈ montar_base cols df g) :
    m.delta = PF.sub m.nota m.nota_anterior ∧
    m.delta_pct = PF.mul (PF.div (PF.sub m.nota m.nota_anterior) m.nota_anterior) (PF.num 100) ∧
    m.label_text = mkLabel m.nota m.nota_anterior m.delta m.delta_pct := by
  simp only [montar_base] at h
  obtain ⟨rp, hmem, rfl⟩ := List.mem_map.mp h
  exact ⟨rfl, rfl, rfl⟩

theorem mul_inf_100 (s : Bool) : PF.mul (PF.inf s) (PF.num 100) = PF.inf s := by
  have h1 : ¬((100 : ℚ) = 0) := by norm_num
  have h2 : decide ((0 : ℚ) < 100) = true := by
    rw [decide_eq_true_eq]
    norm_num
  simp [PF.mul, h1, h2]

/-- C2, counterexample: with previous value `0.0` and current value `5.0`,
`Delta_pct` is `+inf` — not the missing marker — because NumPy float division
by zero yields infinity and `pd.isna(inf)` is false, so the label prints
`+inf%` instead of the em-dash. -/
theorem C2_counterexample :
    (outC2.map (·.delta_pct)).getD 1 PF.nan = PF.inf true ∧
    (outC2.map (·.delta_pct)).getD 1 PF.nan ≠ PF.nan ∧
    PF.isna (PF.inf true) = false ∧
    (outC2.map (·.label_text)).getD 1 "" = "Nota 5.00 (Δ +5.00; +inf%)" ∧
    (outC2.map (·.label_text)).getD 1 "" ≠ "Nota 5.00 (Δ +5.00; —%)" :=
  ⟨by with_unfolding_all rfl, by with_unfolding_all decide, rfl,
    by with_unfolding_all rfl, by with_unfolding_all decide⟩

/-- C2, amended: whenever `Nota_anterior = 0` and `Nota = v ≠ 0` in a
`montar_base` row, `Delta = v`, the division does not raise but produces the
signed infinity (`DeltaPct = ±inf`, which is *not* the missing marker), and
the label renders `+inf`/`-inf` — not the em-dash — in the percentage term. -/
theorem C2_amended_div_by_zero_gives_inf {cols : List String} {df : List LongRow}
    {g : String} {m : MetricRow} (h : m ∈ montar_base cols df g) (v : ℚ)
    (h0 : m.nota_anterior = PF.num 0) (hv : m.nota = PF.num v) (hvz : v ≠ 0) :
    m.delta = PF.num v ∧
    m.delta_pct = PF.inf (decide (0 < v)) ∧
    m.label_text = "Nota " ++ fmt2 false (PF.num v) ++ " (Δ " ++ fmt2 true (PF.num v) ++
      "; " ++ (if 0 < v then "+inf" else "-inf") ++ "%)" := by
  obtain ⟨hd, hdp, hl⟩ := mem_montar_base h
  rw [h0, hv] at hd hdp hl
  have hsub : PF.sub (PF.num v) (PF.num 0) = PF.num v := by simp [PF.sub]
  rw [hsub] at hd hdp
  have hdiv : PF.div (PF.num v) (PF.num 0) = PF.inf (decide (0 < v)) := by
    simp [PF.div, hvz]
  rw [hdiv, mul_inf_100] at hdp
  refine ⟨hd, hdp, ?_⟩
  rw [hl, hd, hdp]
  by_cases hv0 : 0 < v <;>
    simp [mkLabel, fnum, fsgn, fmt2, PF.isna, hv0]

/-- Witness for C2 at the concrete frame with values `[0.0, 5.0]`. -/
theorem C2_witness :
    mkMetricRow ⟨"G", "c2", PF.num 5⟩ (PF.num 0) ∈
      montar_base ["c1", "c2"] (preparar_df ["c1", "c2"] [("G", [.num 0, .num 5])]) "G" ∧
    (mkMetricRow ⟨"G", "c2", PF.num 5⟩ (PF.num 0)).delta = PF.num 5 ∧
    (mkMetricRow ⟨"G", "c2", PF.num 5⟩ (PF.num 0)).delta_pct = PF.inf true := by
  have hout : montar_base ["c1", "c2"] (preparar_df ["c1", "c2"] [("G", [.num 0, .num 5])]) "G" =
      [mkMetricRow ⟨"G", "c1", PF.num 0⟩ PF.nan,
       mkMetricRow ⟨"G", "c2", PF.num 5⟩ (PF.num 0)] := by
    with_unfolding_all rfl
  have hmem : mkMetricRow ⟨"G", "c2", PF.num 5⟩ (PF.num 0) ∈
      montar_base ["c1", "c2"] (preparar_df ["c1", "c2"] [("G", [.num 0, .num 5])]) "G" := by
    rw [hout]
    simp
  have h := C2_amended_div_by_zero_gives_inf hmem 5 rfl rfl (by norm_num)
  refine ⟨hmem, h.1, ?_⟩
  have h5 : decide ((0 : ℚ) < 5) = true := by
    rw [decide_eq_true_eq]
    norm_num
  simpa [h5] using h.2.1

/-- C3, counterexample: in the frame with values `[10.0, missing, 9.0]` the
third row is a *subsequent* row whose `Nota_anterior` is missing mid-series,
yet its label is the short `"Nota 9.00"`, not the long format with em-dash
placeholders that the claim prescribes. -/
theorem C3_counterexample :
    outC3.map (·.label_text) = ["Nota 10.00", "Nota — (Δ —; —%)", "Nota 9.00"] ∧
    (outC3.map (·.nota_anterior)).getD 2 (PF.num 0) = PF.nan ∧
    (outC3.map (·.label_text)).getD 2 "" ≠ "Nota 9.00 (Δ —; —%)" :=
  ⟨by with_unfolding_all rfl, by with_unfolding_all rfl, by with_unfolding_all decide⟩

/-- C3, amended: a row gets the short label `"Nota {Value:.2f}"` exactly when
its `Nota_anterior` is missing — which holds for the first row of the group
and also for any row whose predecessor's value is missing — and the long
label (with `fsgn` printing missing operands as em-dashes) otherwise; the
first output row always has missing `Nota_anterior`. -/
theorem C3_amended_label_rule (cols : List String) (df : List LongRow) (g : String) :
    (∀ m0 ∈ (montar_base cols df g).head?, m0.nota_anterior = PF.nan) ∧
    ∀ m ∈ montar_base cols df g,
      (m.nota_anterior.isna = true → m.label_text = "Nota " ++ fnum m.nota) ∧
      (m.nota_anterior.isna = false →
        m.label_text = "Nota " ++ fnum m.nota ++ " (Δ " ++ fsgn m.delta ++ "; " ++
          fsgn m.delta_pct ++ "%)") := by
  constructor
  · intro m0 h0
    simp only [montar_base] at h0
    rcases hb : sortByKey (fun r => ordIdx cols r.aval)
        (List.filter (fun r => r.regional == g) df) with _ | ⟨x, xs⟩ <;>
      rw [hb] at h0
    · simp at h0
    · simp only [List.map_cons, List.zip_cons_cons, List.head?_cons,
        Option.mem_def, Option.some_inj] at h0
      subst h0
      rfl
  · intro m hm
    obtain ⟨hd, hdp, hl⟩ := mem_montar_base hm
    constructor
    · intro hna
      rw [hl, mkLabel, hna]
      simp
    · intro hna
      rw [hl, mkLabel, hna]
      simp

/-- Witness for C3 at the concrete frame with values `[10.0, missing, 9.0]`:
the first row and the mid-series-missing third row both take the short
label branch. -/
theorem C3_witness :
    mkMetricRow ⟨"G", "c3", PF.num 9⟩ PF.nan ∈ outC3 ∧
    (mkMetricRow ⟨"G", "c3", PF.num 9⟩ PF.nan).nota_anterior.isna = true ∧
    (mkMetricRow ⟨"G", "c3", PF.num 9⟩ PF.nan).label_text = "Nota " ++ fnum (PF.num 9) ∧
    ∀ m0 ∈ outC3.head?, m0.nota_anterior = PF.nan := by
  have hout : montar_base cols3 (preparar_df cols3 [("G", [.num 10, .missing, .num 9])]) "G" =
      [mkMetricRow ⟨"G", "c1", PF.num 10⟩ PF.nan,
       mkMetricRow ⟨"G", "c2", PF.nan⟩ (PF.num 10),
       mkMetricRow ⟨"G", "c3", PF.num 9⟩ (PF.nan)] := by
    with_unfolding_all rfl
  have hmem : mkMetricRow ⟨"G", "c3", PF.num 9⟩ PF.nan ∈
      montar_base cols3 (preparar_df cols3 [("G", [.num 10, .missing, .num 9])]) "G" := by
    rw [hout]
    simp
  exact ⟨hmem, rfl,
    ((C3_amended_label_rule cols3
        (preparar_df cols3 [("G", [.num 10, .missing, .num 9])]) "G").2 _ hmem).1 rfl,
    (C3_amended_label_rule cols3
        (preparar_df cols3 [("G", [.num 10, .missing, .num 9])]) "G").1⟩

theorem meltCols_length (rows : List SheetRow) (j : Nat) (cs : List String) :
    (meltCols rows j cs).length = cs.length * rows.length := by
  induction cs generalizing j with
  | nil => simp [meltCols]
  | cons c cs ih =>
    simp only [meltCols, List.length_append, List.length_map, List.length_cons, ih]
    ring

/-- C7: when the last row's group-column value contains the attendance marker
`"presen"` (case-insensitively, e.g. `"Presença"`), that row is dropped
before reshaping, so the long table has `(rows − 1) × columns` entries;
without the marker all rows are kept and the long table has
`rows × columns` entries. -/
theorem C7_attendance_row_dropped (cols : List String) (rows : List SheetRow)
    (lr : SheetRow) (h : rows.getLast? = some lr) :
    (preparar_df cols rows).length =
      (if containsL presenMark (lowerC lr.1.data) then rows.length - 1
       else rows.length) * cols.length := by
  rw [preparar_df, meltCols_length]
  simp only [dropPresenca, h]
  by_cases hp : containsL presenMark (lowerC lr.1.data)
  · simp only [hp, if_true, List.length_dropLast]
    ring
  · simp only [hp, Bool.false_eq_true, if_false]
    ring

/-- Witness for C7: a two-row sheet whose trailing row reads `"Presença"`
melts to `(2 − 1) × 1 = 1` long row. -/
theorem C7_witness :
    ([("A", [RawCell.num 1]), ("Presença", [RawCell.num 2])] : List SheetRow).getLast? =
      some ("Presença", [RawCell.num 2]) ∧
    (preparar_df ["c1"] [("A", [RawCell.num 1]), ("Presença", [RawCell.num 2])]).length = 1 := by
  have h := C7_attendance_row_dropped ["c1"]
    [("A", [RawCell.num 1]), ("Presença", [RawCell.num 2])]
    ("Presença", [RawCell.num 2]) (by decide)
  refine ⟨by decide, ?_⟩
  rw [h]
  decide

theorem filter_map_mkLong (g : String) (j : Nat) (c : String) (rows : List SheetRow) :
    (rows.map (mkLong j c)).filter (fun r => r.regional == g) =
      (rows.filter (fun t => t.1 == g)).map (mkLong j c) := by
  induction rows with
  | nil => rfl
  | cons t ts ih =>
    have hcond : ((mkLong j c t).regional == g) = (t.1 == g) := rfl
    simp only [List.map_cons, List.filter_cons, hcond]
    cases h : t.1 == g
    · simp [h, ih]
    · simp [h, ih]

theorem meltCols_filter (g : String) (rows : List SheetRow) (j : Nat) (cs : List String) :
    (meltCols rows j cs).filter (fun r => r.regional == g) =
      meltCols (rows.filter (fun t => t.1 == g)) j cs := by
  induction cs generalizing j with
  | nil => rfl
  | cons c cs ih =>
    simp only [meltCols, List.filter_append, filter_map_mkLong, ih]

theorem meltCols_map_aval (t : SheetRow) (j : Nat) (cs : List String) :
    (meltCols [t] j cs).map (·.aval) = cs := by
  induction cs generalizing j with
  | nil => rfl
  | cons c cs ih => simp [meltCols, mkLong, ih]

theorem meltCols_aval_blocks (rows : List SheetRow) (j : Nat) (cs : List String) :
    (meltCols rows j cs).map (·.aval) =
      cs.flatMap (fun c => List.replicate rows.length c) := by
  induction cs generalizing j with
  | nil => rfl
  | cons c cs ih =>
    simp only [meltCols, List.map_append, List.map_map, ih, List.flatMap_cons]
    congr 1
    have hc : ((·.aval) ∘ mkLong j c) = Function.const SheetRow c := by
      funext t
      rfl
    rw [hc, List.map_const]

theorem ordIdx_getElem (l : List String) (h : l.Nodup) (i : Nat) (hi : i < l.length) :
    ordIdx l l[i] = i := by
  induction l generalizing i with
  | nil => simp at hi
  | cons x xs ih =>
    cases i with
    | zero => simp [ordIdx]
    | succ n =>
      have hn : n < xs.length := by simpa using hi
      have hx : x ∉ xs := (List.nodup_cons.mp h).1
      have hne : (x == xs[n]) = false := by
        rw [beq_eq_false_iff_ne]
        intro he
        exact hx (he ▸ List.getElem_mem hn)
      simp [ordIdx, List.getElem_cons_succ, hne, ih (List.nodup_cons.mp h).2 n hn]

theorem chain_meltCols_single (cols : List String) (hnd : cols.Nodup) (t : SheetRow) :
    (meltCols [t] 0 cols).Chain'
      (fun a b => ordIdx cols a.aval ≤ ordIdx cols b.aval) := by
  have hm := meltCols_map_aval t 0 cols
  refine (List.chain'_map
    (R := fun a b => ordIdx cols a ≤ ordIdx cols b)
    (fun r : LongRow => r.aval)).mp ?_
  rw [hm, List.chain'_iff_get]
  intro i hi
  have h1 : ordIdx cols (cols.get ⟨i, by omega⟩) = i := by
    rw [List.get_eq_getElem]
    exact ordIdx_getElem cols hnd i (by omega)
  have h2 : ordIdx cols (cols.get ⟨i + 1, by omega⟩) = i + 1 := by
    rw [List.get_eq_getElem]
    exact ordIdx_getElem cols hnd (i + 1) (by omega)
  rw [h1, h2]
  omega

theorem sortByKey_of_chain (key : LongRow → Nat) (l : List LongRow)
    (h : l.Chain' (fun a b => key a ≤ key b)) : sortByKey key l = l := by
  induction l with
  | nil => rfl
  | cons x xs ih =>
    rw [sortByKey, ih h.tail]
    cases xs with
    | nil => rfl
    | cons y ys =>
      have hxy : key x ≤ key y := (List.chain'_cons.mp h).1
      simp [insertByKey, hxy]

theorem map_aval_zip_mk (l : List LongRow) (l2 : List PF) (h : l.length ≤ l2.length) :
    ((l.zip l2).map (fun rp => mkMetricRow rp.1 rp.2)).map (·.aval) = l.map (·.aval) := by
  induction l generalizing l2 with
  | nil => simp
  | cons x xs ih =>
    cases l2 with
    | nil => simp at h
    | cons p ps =>
      simp only [List.zip_cons_cons, List.map_cons]
      rw [ih ps (by simpa using h)]
      rfl

/-- C8: the reshaped table lists the categories in original column order
(each column's label repeated once per kept sheet row, column-major), and
for a group occurring in exactly one sheet row the sorted `montar_base`
output traverses exactly the original column order — whatever the labels
are, with no alphabetical re-sorting. -/
theorem C8_category_order_preserved (cols : List String) (rows : List SheetRow)
    (g : String) (t : SheetRow) (hnd : cols.Nodup)
    (hone : (dropPresenca rows).filter (fun r => r.1 == g) = [t]) :
    (preparar_df cols rows).map (·.aval) =
      cols.flatMap (fun c => List.replicate (dropPresenca rows).length c) ∧
    (montar_base cols (preparar_df cols rows) g).map (·.aval) = cols := by
  constructor
  · exact meltCols_aval_blocks (dropPresenca rows) 0 cols
  · simp only [montar_base, preparar_df]
    rw [meltCols_filter, hone]
    rw [sortByKey_of_chain _ _ (chain_meltCols_single cols hnd t)]
    rw [map_aval_zip_mk _ _ (by simp)]
    exact meltCols_map_aval t 0 cols

/-- Witness for C8 with the non-lexically-sortable categories
`["R10", "R2", "R1"]`: the output order is the literal column order,
not the alphabetical one. -/
theorem C8_witness :
    (["R10", "R2", "R1"] : List String).Nodup ∧
    (dropPresenca [("G", [RawCell.num 1, RawCell.num 2, RawCell.num 3])]).filter
      (fun r => r.1 == "G") = [("G", [RawCell.num 1, RawCell.num 2, RawCell.num 3])] ∧
    (montar_base ["R10", "R2", "R1"]
      (preparar_df ["R10", "R2", "R1"]
        [("G", [RawCell.num 1, RawCell.num 2, RawCell.num 3])])
      "G").map (·.aval) = ["R10", "R2", "R1"] ∧
    (["R10", "R2", "R1"] : List String) ≠ ["R1", "R10", "R2"] := by
  have hnd : (["R10", "R2", "R1"] : List String).Nodup := by decide
  have hone : (dropPresenca [("G", [RawCell.num 1, RawCell.num 2, RawCell.num 3])]).filter
      (fun r => r.1 == "G") = [("G", [RawCell.num 1, RawCell.num 2, RawCell.num 3])] := by
    with_unfolding_all rfl
  exact ⟨hnd, hone,
    (C8_category_order_preserved ["R10", "R2", "R1"]
      [("G", [RawCell.num 1, RawCell.num 2, RawCell.num 3])] "G"
      ("G", [RawCell.num 1, RawCell.num 2, RawCell.num 3]) hnd hone).2,
    by decide⟩

/-- C4: for any group `g` (whose label does not itself carry the attendance
marker, so its row is kept) with category sequence `c1 < c2 < c3` and values
`[10.0, 12.0, 9.0]`, `montar_base` yields
`Nota_anterior = [missing, 10, 12]`, `Delta = [missing, 2, −3]`,
`Delta_pct = [missing, 20, −25]`, first label `"Nota 10.00"` and second
label `"Nota 12.00 (Δ +2.00; +20.00%)"`. -/
theorem C4_worked_example (g : String)
    (hg : containsL presenMark (lowerC g.data) = false) :
    (outC4 g).map (·.nota_anterior) = [PF.nan, PF.num 10, PF.num 12] ∧
    (outC4 g).map (·.delta) = [PF.nan, PF.num 2, PF.num (-3)] ∧
    (outC4 g).map (·.delta_pct) = [PF.nan, PF.num 20, PF.num (-25)] ∧
    ((outC4 g).map (·.label_text)).getD 0 "" = "Nota 10.00" ∧
    ((outC4 g).map (·.label_text)).getD 1 "" = "Nota 12.00 (Δ +2.00; +20.00%)" := by
  have hdrop : dropPresenca [(g, [RawCell.num 10, RawCell.num 12, RawCell.num 9])] =
      [(g, [RawCell.num 10, RawCell.num 12, RawCell.num 9])] := by
    simp [dropPresenca, hg]
  have hmelt : meltCols [(g, [RawCell.num 10, RawCell.num 12, RawCell.num 9])] 0 cols3 =
      [⟨g, "c1", PF.num 10⟩, ⟨g, "c2", PF.num 12⟩, ⟨g, "c3", PF.num 9⟩] := rfl
  have hfil : List.filter (fun r => r.regional == g)
      ([⟨g, "c1", PF.num 10⟩, ⟨g, "c2", PF.num 12⟩, ⟨g, "c3", PF.num 9⟩] : List LongRow) =
      [⟨g, "c1", PF.num 10⟩, ⟨g, "c2", PF.num 12⟩, ⟨g, "c3", PF.num 9⟩] := by
    simp [List.filter]
  have hout : outC4 g =
      [mkMetricRow ⟨g, "c1", PF.num 10⟩ PF.nan,
       mkMetricRow ⟨g, "c2", PF.num 12⟩ (PF.num 10),
       mkMetricRow ⟨g, "c3", PF.num 9⟩ (PF.num 12)] := by
    rw [outC4]
    simp only [preparar_df]
    rw [hdrop, hmelt]
    simp only [montar_base]
    rw [hfil]
    with_unfolding_all rfl
  rw [hout]
  refine ⟨by with_unfolding_all rfl, by with_unfolding_all rfl, by with_unfolding_all rfl,
    by with_unfolding_all rfl, by with_unfolding_all rfl⟩

/-- Witness for C4 at the concrete group name `"G"`. -/
theorem C4_witness :
    containsL presenMark (lowerC "G".data) = false ∧
    (outC4 "G").map (·.delta_pct) = [PF.nan, PF.num 20, PF.num (-25)] ∧
    ((outC4 "G").map (·.label_text)).getD 1 "" = "Nota 12.00 (Δ +2.00; +20.00%)" := by
  have h := C4_worked_example "G" (by decide)
  exact ⟨by decide, h.2.2.1, h.2.2.2.2⟩
